import Mathlib

/-!
Verification of the PDV backup-analyzer core (`src/app.py`, class
`PDVBackupAnalyzer` and its data-model classes) against its natural-language
specification.

Modelling conventions for the shallow embedding:
* a Python `bytes` buffer is a `List Nat` (each element is a byte value);
* Python `float` results are modelled as exact rationals (`ℚ`); every float
  operation the analyzer performs on the values reached here (division of
  integers, comparison with `0`/`0.5`, copying) is order- and sign-exact, so
  the rational model agrees with the float semantics on every property stated
  below;
* Python `int` subtraction that may go negative (`bytes_unicode`) is `ℤ`;
* `datetime.now()` readings are modelled by an explicit clock argument
  `agora : Nat`, one per analysis run;
* the `st.error(...)` + `return None` failure path of `carregar_arquivo` is
  an `Except String` value carrying the emitted message.
-/

set_option maxRecDepth 100000

namespace PDV

/-- Second and later bytes of a multi-byte UTF-8 sequence: `0x80 ≤ b ≤ 0xBF`. -/
def continuaUtf8 (b : Nat) : Bool := 128 ≤ b && b ≤ 191

/-- Allowed range of the first continuation byte of a three-byte sequence
(depends on the leading byte: `E0` forbids overlong, `ED` forbids surrogates). -/
def continua3 (b c1 : Nat) : Bool :=
  if b = 224 then 160 ≤ c1 && c1 ≤ 191
  else if b = 237 then 128 ≤ c1 && c1 ≤ 159
  else continuaUtf8 c1

/-- Allowed range of the first continuation byte of a four-byte sequence. -/
def continua4 (b c1 : Nat) : Bool :=
  if b = 240 then 144 ≤ c1 && c1 ≤ 191
  else if b = 244 then 128 ≤ c1 && c1 ≤ 143
  else continuaUtf8 c1

/-- One pass of UTF-8 decoding with invalid bytes dropped, written with a
fuel argument so that the recursion is structural (and hence reducible by
the kernel on concrete inputs).  Every step consumes at least one byte, so
any fuel at least the list length yields the untruncated decoding.
(CPython skips the maximal valid subpart of an ill-formed sequence;
skipping one byte at a time yields the same output, because a stranded
continuation byte is itself invalid as a start byte and is dropped on
reprocessing.) -/
def decodeAux : Nat → List Nat → List Char
  | 0, _ => []
  | _ + 1, [] => []
  | fuel + 1, b :: resto =>
    if b < 128 then Char.ofNat b :: decodeAux fuel resto
    else if 194 ≤ b && b ≤ 223 then
      match resto with
      | c1 :: r1 =>
        if continuaUtf8 c1 then
          Char.ofNat ((b - 192) * 64 + (c1 - 128)) :: decodeAux fuel r1
        else decodeAux fuel (c1 :: r1)
      | [] => []
    else if 224 ≤ b && b ≤ 239 then
      match resto with
      | c1 :: c2 :: r2 =>
        if continua3 b c1 && continuaUtf8 c2 then
          Char.ofNat ((b - 224) * 4096 + (c1 - 128) * 64 + (c2 - 128)) ::
            decodeAux fuel r2
        else decodeAux fuel (c1 :: c2 :: r2)
      | outros => decodeAux fuel outros
    else if 240 ≤ b && b ≤ 244 then
      match resto with
      | c1 :: c2 :: c3 :: r3 =>
        if continua4 b c1 && continuaUtf8 c2 && continuaUtf8 c3 then
          Char.ofNat ((b - 240) * 262144 + (c1 - 128) * 4096 + (c2 - 128) * 64
              + (c3 - 128)) :: decodeAux fuel r3
        else decodeAux fuel (c1 :: c2 :: c3 :: r3)
      | outros => decodeAux fuel outros
    else decodeAux fuel resto

/-- Python `bytes.decode('utf-8', errors='ignore')`. -/
def decodeUtf8Ignore (l : List Nat) : List Char := decodeAux l.length l

/-- Python `bytes.decode('utf-8', errors='ignore')` producing a `String`. -/
def pyDecode (l : List Nat) : String := String.mk (decodeUtf8Ignore l)

/-- The characters Python's `str.strip()` removes (`Py_UNICODE_ISSPACE`). -/
def pyEspaco (c : Char) : Bool :=
  c.toNat ∈ [9, 10, 11, 12, 13, 28, 29, 30, 31, 32, 133, 160, 5760, 8192,
    8193, 8194, 8195, 8196, 8197, 8198, 8199, 8200, 8201, 8202, 8232, 8233,
    8239, 8287, 12288]

/-- Python `str.strip()`: drop leading and trailing whitespace characters. -/
def pyStrip (s : String) : String :=
  String.mk (((s.data.dropWhile pyEspaco).reverse.dropWhile pyEspaco).reverse)

/-- Python `str.isdigit()` restricted to strings of characters below `U+0080`
(the only strings it is applied to here: both call sites feed it characters
produced from bytes in `32..127`): nonempty and all ASCII digits. -/
def pyIsdigitAscii (s : String) : Bool :=
  0 < s.length && s.data.all (fun c => 48 ≤ c.toNat && c.toNat ≤ 57)

/-- Remove the first occurrence of a character from a character list. -/
def removePrimeiro (c : Char) : List Char → List Char
  | [] => []
  | a :: r => if a = c then r else a :: removePrimeiro c r

/-- Python `s.replace('.', '', 1)`: drop the first dot, if any. -/
def pyRemovePonto (s : String) : String := String.mk (removePrimeiro '.' s.data)

/-- The digits of a decimal literal read as a natural number (the dot, if
any, removed). -/
def valorNumerador (s : String) : Nat :=
  (s.data.filter (fun c => c ≠ '.')).foldl (fun a c => a * 10 + (c.toNat - 48)) 0

/-- How many characters follow the first dot of a decimal literal. -/
def valorCasas (s : String) : Nat :=
  match s.data.dropWhile (fun c => c ≠ '.') with
  | [] => 0
  | _ :: depois => depois.length

/-- Python `float(s)` on the strings that reach it here: `s` has passed
`s.replace('.', '', 1).isdigit()`, so it is one or more ASCII digits with at
most one embedded dot.  On these, `float` is exact decimal reading; we model
the value as a rational. -/
def parseValor (s : String) : ℚ :=
  (valorNumerador s : ℚ) / (10 : ℚ) ^ valorCasas s

/-- Python slice `dados[inicio : fim + 1]` (`fim` inclusive). -/
def fatia (dados : List Nat) (inicio fim : Nat) : List Nat :=
  (dados.drop inicio).take (fim + 1 - inicio)

/-- One lowercase hexadecimal digit. -/
def hexDigito (n : Nat) : Char :=
  if n < 10 then Char.ofNat (48 + n) else Char.ofNat (87 + n)

/-- Python `''.join(f'{b:02x}' for b in dados_bloco[:16])`. -/
def hexPrimeiros (l : List Nat) : String :=
  String.mk (((l.take 16).map (fun b => [hexDigito (b / 16), hexDigito (b % 16)])).flatten)

/-! ## Data model (`ArquivoBackup`, `BlocoEstrutura`, `NotaFiscal`)
Fields that the analyzer never assigns after `__init__` and that no claim
mentions (`id`, `arquivo_id`, `cliente_id`, `padroes_repetitivos`,
`bytes_mais_comuns`, `dados_brutos`) are omitted; fields `__init__` sets and
later code may overwrite are present with their initial values. -/

/-- Python class `ArquivoBackup` (src/app.py lines 22-36). -/
structure ArquivoBackup where
  nome_arquivo : String
  tamanho_bytes : Nat
  assinatura : String
  data_criacao : Nat
  versao_formato : String
  percentual_bytes_nulos : ℚ
  percentual_controle : ℚ
  percentual_ascii : ℚ
  percentual_unicode : ℚ
  numero_blocos : Nat
  numero_regioes_nulas : Nat
  capacidade_estimada : Nat
deriving Repr, DecidableEq

/-- The state `ArquivoBackup.__init__` leaves behind. -/
def ArquivoBackup.novo (nome : String) (tamanho : Nat) (agora : Nat) : ArquivoBackup :=
  { nome_arquivo := nome, tamanho_bytes := tamanho, assinatura := ""
    data_criacao := agora, versao_formato := "", percentual_bytes_nulos := 0
    percentual_controle := 0, percentual_ascii := 0, percentual_unicode := 0
    numero_blocos := 0, numero_regioes_nulas := 0, capacidade_estimada := 0 }

/-- Python dict `{'inicio': ..., 'fim': ..., 'tamanho': ...}` appended by
`mapear_regioes_nulas`. -/
structure Regiao where
  inicio : Nat
  fim : Nat
  tamanho : Nat
deriving Repr, DecidableEq

/-- Python class `BlocoEstrutura` (src/app.py lines 38-50). -/
structure BlocoEstrutura where
  posicao_inicio : Nat
  posicao_fim : Nat
  tamanho : Nat
  tipo : String
  contem_texto : Bool
  contem_binario : Bool
  assinatura_hex : String
deriving Repr, DecidableEq

/-- Python class `NotaFiscal` (src/app.py lines 52-67). -/
structure NotaFiscal where
  bloco_id : Nat
  posicao_registro : Nat
  numero : String
  serie : String
  data_emissao : Nat
  valor_total : ℚ
  desconto : ℚ
  acrescimo : ℚ
  valor_final : ℚ
  status : String
  tipo_nota : String
deriving Repr, DecidableEq

/-- The state `NotaFiscal.__init__` leaves behind (`data_emissao` is the
clock reading). -/
def NotaFiscal.nova (agora : Nat) : NotaFiscal :=
  { bloco_id := 0, posicao_registro := 0, numero := "", serie := ""
    data_emissao := agora, valor_total := 0, desconto := 0, acrescimo := 0
    valor_final := 0, status := "ATIVA", tipo_nota := "VENDA" }

/-! ## Byte-distribution profiler (src/app.py lines 93-103) -/

/-- `sum(1 for b in arquivo_bytes if b == 0)`. -/
def contarNulos (dados : List Nat) : Nat := dados.countP (fun b => b == 0)

/-- `sum(1 for b in arquivo_bytes if b < 32)` (includes the null bytes). -/
def contarControle (dados : List Nat) : Nat := dados.countP (fun b => b < 32)

/-- `sum(1 for b in arquivo_bytes if 32 <= b <= 127)`. -/
def contarAscii (dados : List Nat) : Nat :=
  dados.countP (fun b => 32 ≤ b && b ≤ 127)

/-! ## Null-region mapper (src/app.py lines 116-144) -/

/-- The scan loop of `mapear_regioes_nulas` from absolute position `pos`:
advance byte by byte through non-null bytes; at a null byte take the whole
maximal null run (the byte itself plus the following nulls), record it as a
region when its length is at least 20 (`tamanho_min`), and continue after
the run.  The fuel argument makes the recursion structural (so the kernel
can evaluate it); every step consumes at least one byte, so any fuel at
least the list length yields the untruncated scan. -/
def mapearDesde : Nat → Nat → List Nat → List Regiao
  | 0, _, _ => []
  | _ + 1, _, [] => []
  | fuel + 1, pos, b :: resto =>
    if b ≠ 0 then mapearDesde fuel (pos + 1) resto
    else
      let m := (resto.takeWhile (fun x => x == 0)).length + 1
      let depois := resto.dropWhile (fun x => x == 0)
      if 20 ≤ m then
        { inicio := pos, fim := pos + m - 1, tamanho := m } ::
          mapearDesde fuel (pos + m) depois
      else mapearDesde fuel (pos + m) depois

/-- Python method `mapear_regioes_nulas` as the list of regions it appends. -/
def mapear_regioes_nulas (dados : List Nat) : List Regiao :=
  mapearDesde dados.length 0 dados

/-! ## Block segmenter (src/app.py lines 146-202) -/

/-- Stable insertion of a region into a list sorted by `inicio`. -/
def insereRegiao (r : Regiao) : List Regiao → List Regiao
  | [] => [r]
  | s :: resto =>
    if r.inicio ≤ s.inicio then r :: s :: resto else s :: insereRegiao r resto

/-- Python `sorted(self.regioes_nulas, key=lambda r: r['inicio'])`: a stable
sort by `inicio` (insertion sort is stable, like Python's sort). -/
def ordenarPorInicio : List Regiao → List Regiao
  | [] => []
  | r :: resto => insereRegiao r (ordenarPorInicio resto)

/-- The block built for the gap `[posicao_atual, regiao.inicio - 1]` before a
null region (src/app.py lines 157-185).  `texto_ascii > len(dados_bloco) * 0.5`
over floats equals `len(dados_bloco) < 2 * texto_ascii` over integers
(scaling by the float `0.5` is exact). -/
def classificaBloco (dados : List Nat) (posicao_atual inicioRegiao : Nat) :
    BlocoEstrutura :=
  let posicao_fim := inicioRegiao - 1
  let tamanho := posicao_fim - posicao_atual + 1
  if posicao_atual = 0 then
    { posicao_inicio := 0, posicao_fim := posicao_fim, tamanho := tamanho
      tipo := "CABEÇALHO", contem_texto := false, contem_binario := false
      assinatura_hex := "" }
  else
    let dados_bloco := fatia dados posicao_atual posicao_fim
    let texto_ascii := dados_bloco.countP (fun b => 32 ≤ b && b ≤ 127)
    { posicao_inicio := posicao_atual, posicao_fim := posicao_fim
      tamanho := tamanho
      tipo := if posicao_atual < 1024 then "DEFINIÇÃO" else "DADOS"
      contem_texto := decide (dados_bloco.length < 2 * texto_ascii)
      contem_binario := dados_bloco.any (fun b => 127 < b)
      assinatura_hex := hexPrimeiros dados_bloco }

/-- The loop of `identificar_blocos` over the sorted regions, with running
cursor `posicao_atual`, followed by the final tail block (always of type
`"DADOS"`) when the cursor has not reached the end of the buffer. -/
def blocosEntre (dados : List Nat) (posicao_atual : Nat) :
    List Regiao → List BlocoEstrutura
  | [] =>
    if posicao_atual < dados.length then
      [{ posicao_inicio := posicao_atual, posicao_fim := dados.length - 1
         tamanho := dados.length - 1 - posicao_atual + 1, tipo := "DADOS"
         contem_texto := false, contem_binario := false, assinatura_hex := "" }]
    else []
  | regiao :: resto =>
    if posicao_atual < regiao.inicio then
      classificaBloco dados posicao_atual regiao.inicio ::
        blocosEntre dados (regiao.fim + 1) resto
    else blocosEntre dados (regiao.fim + 1) resto

/-- Python method `identificar_blocos` as the list of blocks it appends,
given the analyzer's current region list. -/
def identificar_blocos (dados : List Nat) (regioes : List Regiao) :
    List BlocoEstrutura :=
  blocosEntre dados 0 (ordenarPorInicio regioes)

/-! ## Invoice extractor (src/app.py lines 204-252) -/

/-- `all(48 <= dados_bloco[i+j] <= 57 for j in range(6))`: six ASCII digits
at offset `i` of the block (the loop bound keeps every read in range, so the
default of `getD` is never returned). -/
def digitos6 (dados_bloco : List Nat) (i : Nat) : Bool :=
  (List.range 6).all
    (fun j => 48 ≤ dados_bloco.getD (i + j) 0 && dados_bloco.getD (i + j) 0 ≤ 57)

/-- The filtered value window `valor_str`: bytes `dados_bloco[i+10:i+18]`
kept only when printable ASCII, as characters. -/
def valorStr (dados_bloco : List Nat) (i : Nat) : String :=
  String.mk
    (((fatia dados_bloco (i + 10) (i + 17)).filter
        (fun b => 32 ≤ b && b ≤ 127)).map Char.ofNat)

/-- The body of the candidate scan of `extrair_notas_fiscais` at offset `i`
of a data block: the record appended for this candidate, if any.  The bare
`except: pass` of the source is dead code on the values that reach the `try`
(slicing never raises, the filtered literal that passes the digit test is
always a valid `float` literal), so no case of it appears here. -/
def candidato (agora idBloco inicioBloco : Nat) (dados_bloco : List Nat)
    (i : Nat) : Option NotaFiscal :=
  if digitos6 dados_bloco i then
    let numero := pyStrip (String.mk ((List.range 6).map
      (fun j => Char.ofNat (dados_bloco.getD (i + j) 0))))
    let serie := pyStrip (String.mk ((List.range 3).map
      (fun j => Char.ofNat (dados_bloco.getD (i + 6 + j) 0))))
    let base : NotaFiscal :=
      { NotaFiscal.nova agora with
        bloco_id := idBloco, posicao_registro := inicioBloco + i
        numero := numero, serie := serie }
    if pyIsdigitAscii numero && decide (0 < numero.length) then
      let nota :=
        if pyIsdigitAscii (pyRemovePonto (valorStr dados_bloco i)) then
          { base with
            valor_total := parseValor (valorStr dados_bloco i)
            valor_final := parseValor (valorStr dados_bloco i) }
        else base
      if 0 < nota.valor_total then some nota else none
    else none
  else none

/-- Python method `extrair_notas_fiscais` as the list of records it appends:
for each block of type `"DADOS"` (indexed by its position in that filtered
list, which is what `blocos_dados.index(bloco)` yields), scan every offset
`i < len(dados_bloco) - 20` in single-byte steps. -/
def extrair_notas_fiscais (agora : Nat) (dados : List Nat)
    (blocos : List BlocoEstrutura) : List NotaFiscal :=
  let blocos_dados := blocos.filter (fun b => b.tipo == "DADOS")
  blocos_dados.enum.flatMap (fun par =>
    let dados_bloco := fatia dados par.2.posicao_inicio par.2.posicao_fim
    (List.range (dados_bloco.length - 20)).filterMap
      (fun i => candidato agora par.1 par.2.posicao_inicio dados_bloco i))

/-! ## Density-map generator (src/app.py lines 303-327) -/

/-- One row of the `gerar_mapa_densidade` output. -/
structure JanelaDensidade where
  inicio : Nat
  fim : Nat
  densidade_nulos : ℚ
  densidade_controle : ℚ
  densidade_ascii : ℚ
  densidade_unicode : ℚ
deriving Repr, DecidableEq

/-- Python method `gerar_mapa_densidade`: fixed-size windows over the whole
buffer (the last one truncated), each with its four per-window counts turned
into densities.  Note its control count excludes null bytes
(`b < 32 and b != 0`), unlike the global profiler. -/
def gerar_mapa_densidade (dados : List Nat) (tamanho_bloco : Nat) :
    List JanelaDensidade :=
  let total_blocos := (dados.length + tamanho_bloco - 1) / tamanho_bloco
  (List.range total_blocos).map (fun i =>
    let inicio := i * tamanho_bloco
    let fim := min ((i + 1) * tamanho_bloco - 1) (dados.length - 1)
    let bloco_dados := fatia dados inicio fim
    let bytes_nulos := bloco_dados.countP (fun b => b == 0)
    let bytes_controle := bloco_dados.countP (fun b => b < 32 && b != 0)
    let bytes_ascii := bloco_dados.countP (fun b => 32 ≤ b && b ≤ 127)
    let bytes_unicode : ℤ :=
      (bloco_dados.length : ℤ) - bytes_nulos - bytes_controle - bytes_ascii
    { inicio := inicio, fim := fim
      densidade_nulos := (bytes_nulos : ℚ) / (bloco_dados.length : ℚ)
      densidade_controle := (bytes_controle : ℚ) / (bloco_dados.length : ℚ)
      densidade_ascii := (bytes_ascii : ℚ) / (bloco_dados.length : ℚ)
      densidade_unicode := (bytes_unicode : ℚ) / (bloco_dados.length : ℚ) })

/-! ## The analyzer object and `carregar_arquivo` (src/app.py lines 70-114) -/

/-- The mutable state of a `PDVBackupAnalyzer` instance (the fields the
analysis touches; `itens`, `pagamentos`, `clientes` are never written). -/
structure PDVBackupAnalyzer where
  arquivo : Option ArquivoBackup
  blocos : List BlocoEstrutura
  regioes_nulas : List Regiao
  notas_fiscais : List NotaFiscal
deriving Repr, DecidableEq

/-- `PDVBackupAnalyzer.__init__`: a fresh analyzer with empty output lists. -/
def PDVBackupAnalyzer.novo : PDVBackupAnalyzer :=
  { arquivo := none, blocos := [], regioes_nulas := [], notas_fiscais := [] }

/-- The one error message `carregar_arquivo` can emit (via `st.error`),
for any buffer whose first three bytes do not decode to `"HE3"` — the
zero-length buffer included. -/
def mensagemAssinatura : String := "Arquivo não possui a assinatura HE3!"

/-- Python method `carregar_arquivo`: signature check, byte-distribution
percentages, then the three mutating stages `mapear_regioes_nulas`,
`identificar_blocos`, `extrair_notas_fiscais` inlined in call order — each
appends to the corresponding list of `self` and reads the list its
predecessor left (so a reused analyzer accumulates).  Returns the analyzer
state after the call together with the returned value (`self.arquivo`, or
the `st.error` message for the `return None` path). -/
def carregar_arquivo (agora : Nat) (s : PDVBackupAnalyzer)
    (arquivo_bytes : List Nat) (nome_arquivo : String) :
    PDVBackupAnalyzer × Except String ArquivoBackup :=
  if 3 ≤ arquivo_bytes.length ∧ pyDecode (arquivo_bytes.take 3) = "HE3" then
    let total_bytes := arquivo_bytes.length
    let bytes_nulos := contarNulos arquivo_bytes
    let bytes_controle := contarControle arquivo_bytes
    let bytes_ascii := contarAscii arquivo_bytes
    let bytes_unicode : ℤ :=
      (total_bytes : ℤ) - bytes_nulos - bytes_controle - bytes_ascii
    let regioes_nulas := s.regioes_nulas ++ mapear_regioes_nulas arquivo_bytes
    let blocos := s.blocos ++ identificar_blocos arquivo_bytes regioes_nulas
    let notas :=
      s.notas_fiscais ++ extrair_notas_fiscais agora arquivo_bytes blocos
    let arquivo : ArquivoBackup :=
      { ArquivoBackup.novo nome_arquivo total_bytes agora with
        assinatura := "HE3"
        versao_formato := pyStrip (pyDecode (fatia arquivo_bytes 3 6))
        percentual_bytes_nulos := (bytes_nulos : ℚ) / (total_bytes : ℚ) * 100
        percentual_controle := (bytes_controle : ℚ) / (total_bytes : ℚ) * 100
        percentual_ascii := (bytes_ascii : ℚ) / (total_bytes : ℚ) * 100
        percentual_unicode := (bytes_unicode : ℚ) / (total_bytes : ℚ) * 100
        numero_regioes_nulas := regioes_nulas.length
        numero_blocos := blocos.length }
    ({ arquivo := some arquivo, blocos := blocos
       regioes_nulas := regioes_nulas, notas_fiscais := notas },
     Except.ok arquivo)
  else
    ({ s with
       arquivo := some (ArquivoBackup.novo nome_arquivo arquivo_bytes.length agora) },
     Except.error mensagemAssinatura)

/-- One analysis run as the surrounding application performs it (src/app.py
lines 363-367): a fresh `PDVBackupAnalyzer`, then `carregar_arquivo`. -/
def execucao (agora : Nat) (dados : List Nat) (nome : String) :
    PDVBackupAnalyzer × Except String ArquivoBackup :=
  carregar_arquivo agora PDVBackupAnalyzer.novo dados nome

/-! ## Invariants of the scanner output and the block walk -/

/-- ASCII codepoints survive `Char.ofNat` unchanged. -/
theorem char_toNat_ofNat {n : Nat} (h : n < 55296) : (Char.ofNat n).toNat = n := by
  unfold Char.ofNat
  split
  · rfl
  · omega

/-- Invariant of a region list as the scanner emits it from position `p` in
a buffer of length `bound`: each region starts at or after `p`, is nonempty,
ends before `bound`, stores its own length (at least 20), and the next
region starts at least two positions after this one ends (the scanner
resumes on a non-null byte). -/
def RegioesBoas : Nat → Nat → List Regiao → Prop
  | _, _, [] => True
  | p, bound, r :: resto =>
    p ≤ r.inicio ∧ r.inicio ≤ r.fim ∧ r.fim < bound ∧
      r.tamanho = r.fim - r.inicio + 1 ∧ 20 ≤ r.tamanho ∧
      RegioesBoas (r.fim + 2) bound resto

theorem RegioesBoas.mono : ∀ {l : List Regiao} {p p' b b' : Nat},
    RegioesBoas p b l → p' ≤ p → b ≤ b' → RegioesBoas p' b' l
  | [], _, _, _, _, _, _, _ => trivial
  | r :: resto, p, p', b, b', h, hp, hb => by
    obtain ⟨h1, h2, h3, h4, h5, h6⟩ := h
    exact ⟨le_trans hp h1, h2, lt_of_lt_of_le h3 hb, h4, h5,
      RegioesBoas.mono h6 le_rfl hb⟩

/-- The head element left by `dropWhile` fails the predicate. -/
theorem dropWhile_eq_cons_head : ∀ {l : List Nat} {p : Nat → Bool} {x : Nat}
    {xs : List Nat}, l.dropWhile p = x :: xs → p x = false := by
  intro l
  induction l with
  | nil => intro p x xs h; simp [List.dropWhile] at h
  | cons a l ih =>
    intro p x xs h
    rw [List.dropWhile_cons] at h
    by_cases hp : p a = true
    · exact ih (by simpa [hp] using h)
    · rw [if_neg hp] at h
      cases h
      simpa using hp

/-- The null-region scanner satisfies the invariant from its start position
whenever its fuel covers the buffer. -/
theorem regioesBoas_mapearDesde :
    ∀ (fuel : Nat) (dados : List Nat) (p : Nat), dados.length ≤ fuel →
      RegioesBoas p (p + dados.length) (mapearDesde fuel p dados) := by
  intro fuel
  induction fuel using Nat.strong_induction_on with
  | _ fuel ih =>
    intro dados p h
    match fuel, dados with
    | 0, dados =>
      rw [Nat.le_zero, List.length_eq_zero] at h
      subst h
      simp [mapearDesde, RegioesBoas]
    | fuel + 1, [] => simp [mapearDesde, RegioesBoas]
    | fuel + 1, b :: resto =>
      have hres : resto.length ≤ fuel := by simp at h; omega
      rw [mapearDesde]
      by_cases hb : b ≠ 0
      · rw [if_pos hb]
        have hbnd : p + 1 + resto.length = p + (b :: resto).length := by
          simp; omega
        exact (ih fuel (by omega) resto (p + 1) hres).mono (Nat.le_succ p)
          (le_of_eq hbnd)
      · rw [if_neg hb]
        simp only []
        have htd := List.takeWhile_append_dropWhile (p := fun x => x == 0) (l := resto)
        cases hdep : resto.dropWhile (fun x => x == 0) with
        | nil =>
          rw [hdep] at htd
          have hlen : (resto.takeWhile (fun x => x == 0)).length = resto.length := by
            conv_rhs => rw [← htd]
            simp
          by_cases hm : 20 ≤ (resto.takeWhile (fun x => x == 0)).length + 1
          · rw [if_pos hm]
            refine ⟨le_rfl, by dsimp only; omega, by dsimp only; simp; omega,
              by dsimp only; omega, by dsimp only; omega, ?_⟩
            dsimp only
            match fuel with
            | 0 => simp [mapearDesde, RegioesBoas]
            | fuel + 1 => simp [mapearDesde, RegioesBoas]
          · rw [if_neg hm]
            match fuel with
            | 0 => simp [mapearDesde, RegioesBoas]
            | fuel + 1 => simp [mapearDesde, RegioesBoas]
        | cons x depois2 =>
          rw [hdep] at htd
          have hlen : (resto.takeWhile (fun x => x == 0)).length + depois2.length + 1
              = resto.length := by
            conv_rhs => rw [← htd]
            simp
            omega
          have hx : x ≠ 0 := by simpa using dropWhile_eq_cons_head hdep
          have hfuel : fuel = fuel - 1 + 1 := by omega
          have hrec : RegioesBoas
              (p + ((resto.takeWhile (fun x => x == 0)).length + 1) + 1)
              (p + (b :: resto).length)
              (mapearDesde fuel
                (p + ((resto.takeWhile (fun x => x == 0)).length + 1))
                (x :: depois2)) := by
            rw [hfuel, mapearDesde, if_pos hx]
            have := ih (fuel - 1) (by omega) depois2
              (p + ((resto.takeWhile (fun x => x == 0)).length + 1) + 1)
              (by omega)
            exact this.mono le_rfl (by simp; omega)
          by_cases hm : 20 ≤ (resto.takeWhile (fun x => x == 0)).length + 1
          · rw [if_pos hm]
            refine ⟨le_rfl, by dsimp only; omega, by dsimp only; simp; omega,
              by dsimp only; omega, by dsimp only; omega, ?_⟩
            have heq : p + ((resto.takeWhile (fun x => x == 0)).length + 1) - 1 + 2
                = p + ((resto.takeWhile (fun x => x == 0)).length + 1) + 1 := by omega
            dsimp only
            rw [heq]
            exact hrec
          · rw [if_neg hm]
            exact hrec.mono (by omega) le_rfl

/-- The region list of one scan of the whole buffer satisfies the invariant
for start position `0`. -/
theorem regioesBoas_mapear (dados : List Nat) :
    RegioesBoas 0 dados.length (mapear_regioes_nulas dados) := by
  have := regioesBoas_mapearDesde dados.length dados 0 le_rfl
  simpa [mapear_regioes_nulas] using this

/-- Every region in an invariant-satisfying list starts at or after `p`. -/
theorem RegioesBoas.inicio_ge : ∀ {l : List Regiao} {p b : Nat},
    RegioesBoas p b l → ∀ r ∈ l, p ≤ r.inicio
  | [], _, _, _, _, hr => by cases hr
  | s :: resto, p, b, h, r, hr => by
    obtain ⟨h1, h2, _, _, _, h6⟩ := h
    rcases List.mem_cons.mp hr with rfl | hr
    · exact h1
    · exact le_trans (by omega) (h6.inicio_ge r hr)

/-- An invariant-satisfying region list is (strictly) sorted by `inicio`. -/
theorem RegioesBoas.pairwise : ∀ {l : List Regiao} {p b : Nat},
    RegioesBoas p b l → l.Pairwise (fun r s => r.inicio ≤ s.inicio)
  | [], _, _, _ => List.Pairwise.nil
  | r :: resto, p, b, h => by
    obtain ⟨h1, h2, _, _, _, h6⟩ := h
    refine List.Pairwise.cons (fun s hs => ?_) h6.pairwise
    exact le_trans (by omega) (h6.inicio_ge s hs)

/-- Sorting a list already sorted by `inicio` leaves it unchanged. -/
theorem ordenarPorInicio_eq_self : ∀ {l : List Regiao},
    l.Pairwise (fun r s => r.inicio ≤ s.inicio) → ordenarPorInicio l = l
  | [], _ => rfl
  | r :: resto, h => by
    obtain ⟨hhead, htail⟩ := List.pairwise_cons.mp h
    rw [ordenarPorInicio, ordenarPorInicio_eq_self htail]
    match resto, hhead with
    | [], _ => rfl
    | s :: resto2, hhead =>
      rw [insereRegiao]
      simp [hhead s (by simp)]

/-- Both branches of `classificaBloco` fill the position fields the same way. -/
theorem classificaBloco_campos (dados : List Nat) (p ri : Nat) :
    (classificaBloco dados p ri).posicao_inicio = p ∧
    (classificaBloco dados p ri).posicao_fim = ri - 1 ∧
    (classificaBloco dados p ri).tamanho = ri - 1 - p + 1 := by
  by_cases hp : p = 0
  · subst hp; simp [classificaBloco]
  · simp [classificaBloco, hp]

/-- Every block the walk emits starts at or after the cursor, is nonempty,
ends inside the buffer, and stores its own length. -/
theorem blocosEntre_limites {dados : List Nat} : ∀ {regs : List Regiao} {p : Nat},
    RegioesBoas p dados.length regs →
    ∀ b ∈ blocosEntre dados p regs,
      p ≤ b.posicao_inicio ∧ b.posicao_inicio ≤ b.posicao_fim ∧
        b.posicao_fim < dados.length ∧
        b.tamanho = b.posicao_fim - b.posicao_inicio + 1 := by
  intro regs
  induction regs with
  | nil =>
    intro p _ b hb
    rw [blocosEntre] at hb
    split at hb
    case isTrue hlt =>
      rw [List.mem_singleton] at hb
      subst hb
      dsimp only
      omega
    case isFalse => simp at hb
  | cons r resto ih =>
    intro p hreg b hb
    obtain ⟨h1, h2, h3, h4, h5, h6⟩ := hreg
    have hinv : RegioesBoas (r.fim + 1) dados.length resto := h6.mono (by omega) le_rfl
    rw [blocosEntre] at hb
    by_cases hp : p < r.inicio
    · rw [if_pos hp] at hb
      rcases List.mem_cons.mp hb with rfl | hb
      · obtain ⟨hc1, hc2, hc3⟩ := classificaBloco_campos dados p r.inicio
        exact ⟨by omega, by omega, by omega, by omega⟩
      · have hres := ih hinv b hb
        exact ⟨by have := hres.1; omega, hres.2.1, hres.2.2.1, hres.2.2.2⟩
    · rw [if_neg hp] at hb
      have hres := ih hinv b hb
      exact ⟨by have := hres.1; omega, hres.2.1, hres.2.2.1, hres.2.2.2⟩

/-- The type of every block the walk emits, as a function of its position:
the final tail block (the one reaching the last offset) is always `"DADOS"`;
a gap block starting at offset `0` is `"CABEÇALHO"`; any other gap block is
`"DEFINIÇÃO"` exactly when its start offset is below `1024`. -/
theorem blocosEntre_tipo {dados : List Nat} : ∀ {regs : List Regiao} {p : Nat},
    RegioesBoas p dados.length regs →
    ∀ b ∈ blocosEntre dados p regs,
      b.tipo = if b.posicao_fim + 1 = dados.length then "DADOS"
        else if b.posicao_inicio = 0 then "CABEÇALHO"
        else if b.posicao_inicio < 1024 then "DEFINIÇÃO"
        else "DADOS" := by
  intro regs
  induction regs with
  | nil =>
    intro p _ b hb
    rw [blocosEntre] at hb
    split at hb
    case isTrue hlt =>
      rw [List.mem_singleton] at hb
      subst hb
      dsimp only
      rw [if_pos (by omega)]
    case isFalse => simp at hb
  | cons r resto ih =>
    intro p hreg b hb
    obtain ⟨h1, h2, h3, h4, h5, h6⟩ := hreg
    have hinv : RegioesBoas (r.fim + 1) dados.length resto := h6.mono (by omega) le_rfl
    rw [blocosEntre] at hb
    by_cases hp : p < r.inicio
    · rw [if_pos hp] at hb
      rcases List.mem_cons.mp hb with rfl | hb
      · obtain ⟨hc1, hc2, _⟩ := classificaBloco_campos dados p r.inicio
        rw [hc1, hc2, if_neg (by omega)]
        by_cases hz : p = 0
        · rw [if_pos hz]
          subst hz
          simp [classificaBloco]
        · rw [if_neg hz]
          by_cases hkb : p < 1024
          · rw [if_pos hkb]
            simp [classificaBloco, hz, hkb]
          · rw [if_neg hkb]
            simp [classificaBloco, hz, hkb]
      · exact ih hinv b hb
    · rw [if_neg hp] at hb
      exact ih hinv b hb

/-- No region of an invariant-satisfying list covers an offset below the
cursor. -/
theorem regs_conta_abaixo {regs : List Regiao} {p bound k : Nat}
    (hreg : RegioesBoas p bound regs) (hk : k < p) :
    regs.countP (fun r => r.inicio ≤ k && k ≤ r.fim) = 0 := by
  rw [List.countP_eq_zero]
  intro r hr
  have := hreg.inicio_ge r hr
  simp
  omega

/-- No emitted block covers an offset below the cursor. -/
theorem blocos_conta_abaixo {dados : List Nat} {regs : List Regiao} {p k : Nat}
    (hreg : RegioesBoas p dados.length regs) (hk : k < p) :
    (blocosEntre dados p regs).countP
      (fun b => b.posicao_inicio ≤ k && k ≤ b.posicao_fim) = 0 := by
  rw [List.countP_eq_zero]
  intro b hb
  have := (blocosEntre_limites hreg b hb).1
  simp
  omega

/-- Exact tiling: every offset from the cursor to the end of the buffer is
covered by exactly one emitted block or exactly one remaining region. -/
theorem blocosEntre_conta {dados : List Nat} : ∀ {regs : List Regiao} {p k : Nat},
    RegioesBoas p dados.length regs → p ≤ k → k < dados.length →
    (blocosEntre dados p regs).countP
        (fun b => b.posicao_inicio ≤ k && k ≤ b.posicao_fim)
      + regs.countP (fun r => r.inicio ≤ k && k ≤ r.fim) = 1 := by
  intro regs
  induction regs with
  | nil =>
    intro p k _ hpk hk
    rw [blocosEntre, if_pos (by omega)]
    simp [List.countP_cons]
    omega
  | cons r resto ih =>
    intro p k hreg hpk hk
    obtain ⟨h1, h2, h3, h4, h5, h6⟩ := hreg
    have hinv : RegioesBoas (r.fim + 1) dados.length resto := h6.mono (by omega) le_rfl
    rw [blocosEntre, List.countP_cons]
    by_cases hp : p < r.inicio
    · rw [if_pos hp, List.countP_cons]
      obtain ⟨hc1, hc2, _⟩ := classificaBloco_campos dados p r.inicio
      by_cases hk1 : k < r.inicio
      · have hz1 := blocos_conta_abaixo hinv (k := k) (by omega)
        have hz2 := regs_conta_abaixo hinv (k := k) (by omega)
        rw [hz1, hz2, if_pos (by simp [hc1, hc2]; omega), if_neg (by simp; omega)]
      · by_cases hk2 : k ≤ r.fim
        · have hz1 := blocos_conta_abaixo hinv (k := k) (by omega)
          have hz2 := regs_conta_abaixo hinv (k := k) (by omega)
          rw [hz1, hz2, if_neg (by simp [hc1, hc2]; omega), if_pos (by simp; omega)]
        · have hrec := ih hinv (p := r.fim + 1) (k := k) (by omega) hk
          rw [if_neg (by simp [hc1, hc2]; omega), if_neg (by simp; omega)]
          omega
    · rw [if_neg hp]
      have hpe : p = r.inicio := by omega
      by_cases hk2 : k ≤ r.fim
      · have hz1 := blocos_conta_abaixo hinv (k := k) (by omega)
        have hz2 := regs_conta_abaixo hinv (k := k) (by omega)
        rw [hz1, hz2, if_pos (by simp; omega)]
      · have hrec := ih hinv (p := r.fim + 1) (k := k) (by omega) hk
        rw [if_neg (by simp; omega)]
        omega

/-- On the success path, the analyzer state of a fresh run is exactly the
pure pipeline: the scanner's regions (already sorted, so the sort inside
`identificar_blocos` is the identity), the block walk over them from cursor
`0`, and the extraction over those blocks. -/
theorem execucao_ok_estado {agora : Nat} {dados : List Nat} {nome : String}
    {s : PDVBackupAnalyzer} {a : ArquivoBackup}
    (h : execucao agora dados nome = (s, Except.ok a)) :
    s.regioes_nulas = mapear_regioes_nulas dados ∧
    s.blocos = blocosEntre dados 0 (mapear_regioes_nulas dados) ∧
    s.notas_fiscais = extrair_notas_fiscais agora dados s.blocos ∧
    3 ≤ dados.length ∧ pyDecode (dados.take 3) = "HE3" := by
  rw [execucao, carregar_arquivo] at h
  split at h
  case isTrue hcond =>
    injection h with hs hv
    subst hs
    have hord := ordenarPorInicio_eq_self (regioesBoas_mapear dados).pairwise
    simp [PDVBackupAnalyzer.novo, identificar_blocos, hord]
    exact ⟨hcond.1, hcond.2⟩
  case isFalse =>
    injection h with _ hv
    exact Except.noConfusion hv

/-! ## Characterization of the invoice extractor -/

/-- The record a successful candidate at offset `i` stores: value parsed
from the filtered window, `valor_final` a copy of `valor_total`, discount
and surcharge left at their `__init__` zeroes. -/
def notaDe (agora idBloco inicioBloco : Nat) (dados_bloco : List Nat) (i : Nat) :
    NotaFiscal :=
  { bloco_id := idBloco
    posicao_registro := inicioBloco + i
    numero := pyStrip (String.mk ((List.range 6).map
      (fun j => Char.ofNat (dados_bloco.getD (i + j) 0))))
    serie := pyStrip (String.mk ((List.range 3).map
      (fun j => Char.ofNat (dados_bloco.getD (i + 6 + j) 0))))
    data_emissao := agora
    valor_total := parseValor (valorStr dados_bloco i)
    desconto := 0
    acrescimo := 0
    valor_final := parseValor (valorStr dados_bloco i)
    status := "ATIVA"
    tipo_nota := "VENDA" }

/-- Acceptance condition for the candidate at offset `i` of a data block:
six ASCII digits at the offset, the 8-byte window at offset `i + 10`
filtered to printable ASCII passes the at-most-one-dot all-digits test, and
the value it parses to is strictly positive. -/
def CandidatoAceito (dados_bloco : List Nat) (i : Nat) : Prop :=
  digitos6 dados_bloco i = true ∧
  pyIsdigitAscii (pyRemovePonto (valorStr dados_bloco i)) = true ∧
  0 < parseValor (valorStr dados_bloco i)

instance (dados_bloco : List Nat) (i : Nat) :
    Decidable (CandidatoAceito dados_bloco i) := by
  unfold CandidatoAceito
  infer_instance

/-- `dropWhile` is the identity when the head fails the predicate — in
particular when no element satisfies it. -/
theorem dropWhile_all_false {p : Char → Bool} : ∀ {l : List Char},
    (∀ c ∈ l, p c = false) → l.dropWhile p = l
  | [], _ => rfl
  | a :: l, h => by
    rw [List.dropWhile_cons, if_neg (by simp [h a (by simp)])]

/-- `str.strip()` does not change a string with no whitespace characters. -/
theorem pyStrip_sem_espaco {s : String}
    (h : ∀ c ∈ s.data, pyEspaco c = false) : pyStrip s = s := by
  rw [pyStrip, dropWhile_all_false h,
    dropWhile_all_false (fun c hc => h c (List.mem_reverse.mp hc)),
    List.reverse_reverse]

/-- An ASCII digit is not Python whitespace. -/
theorem pyEspaco_digito {d : Nat} (h1 : 48 ≤ d) (h2 : d ≤ 57) :
    pyEspaco (Char.ofNat d) = false := by
  have hv := char_toNat_ofNat (n := d) (by omega)
  simp [pyEspaco, hv]
  omega

/-- The six digit bytes of an accepted candidate give a `numero` that
`strip` leaves alone and `isdigit` accepts. -/
theorem numero_digitos {dados_bloco : List Nat} {i : Nat}
    (h : digitos6 dados_bloco i = true) :
    pyStrip (String.mk ((List.range 6).map
        (fun j => Char.ofNat (dados_bloco.getD (i + j) 0)))) =
      String.mk ((List.range 6).map
        (fun j => Char.ofNat (dados_bloco.getD (i + j) 0))) ∧
    pyIsdigitAscii (String.mk ((List.range 6).map
      (fun j => Char.ofNat (dados_bloco.getD (i + j) 0)))) = true := by
  rw [digitos6, List.all_eq_true] at h
  have hd : ∀ j, j < 6 → 48 ≤ dados_bloco.getD (i + j) 0 ∧
      dados_bloco.getD (i + j) 0 ≤ 57 := by
    intro j hj
    have := h j (List.mem_range.mpr hj)
    simpa using this
  have hchar : ∀ c ∈ (List.range 6).map
      (fun j => Char.ofNat (dados_bloco.getD (i + j) 0)),
      48 ≤ c.toNat ∧ c.toNat ≤ 57 := by
    intro c hc
    obtain ⟨j, hj, rfl⟩ := List.mem_map.mp hc
    rw [List.mem_range] at hj
    rw [char_toNat_ofNat (by have := hd j hj; omega)]
    exact hd j hj
  constructor
  · exact pyStrip_sem_espaco (fun c hc => by
      obtain ⟨j, hj, rfl⟩ := List.mem_map.mp hc
      rw [List.mem_range] at hj
      exact pyEspaco_digito (hd j hj).1 (hd j hj).2)
  · rw [pyIsdigitAscii]
    simp only [Bool.and_eq_true, decide_eq_true_eq, List.all_eq_true]
    constructor
    · show 0 < ((List.range 6).map _).length
      simp
    · intro c hc
      exact hchar c hc

/-- The candidate at offset `i` stores a record exactly when the acceptance
condition holds, and the stored record is `notaDe`. -/
theorem candidato_eq_some {agora idBloco inicioBloco : Nat}
    {dados_bloco : List Nat} {i : Nat} {n : NotaFiscal} :
    candidato agora idBloco inicioBloco dados_bloco i = some n ↔
    CandidatoAceito dados_bloco i ∧
      n = notaDe agora idBloco inicioBloco dados_bloco i := by
  rw [candidato]
  by_cases h6 : digitos6 dados_bloco i = true
  · rw [if_pos h6]
    obtain ⟨hstrip, hdig⟩ := numero_digitos h6
    have hcond : (pyIsdigitAscii (pyStrip (String.mk ((List.range 6).map
          (fun j => Char.ofNat (dados_bloco.getD (i + j) 0))))) &&
        decide (0 < (pyStrip (String.mk ((List.range 6).map
          (fun j => Char.ofNat (dados_bloco.getD (i + j) 0))))).length)) = true := by
      rw [hstrip, hdig]
      simp [String.length]
    rw [if_pos hcond]
    by_cases hok : pyIsdigitAscii (pyRemovePonto (valorStr dados_bloco i)) = true
    · rw [if_pos hok]
      by_cases hpos : 0 < parseValor (valorStr dados_bloco i)
      · rw [if_pos (show (0 : ℚ) < _ from hpos)]
        constructor
        · intro heq
          exact ⟨⟨h6, hok, hpos⟩, (Option.some_inj.mp heq).symm⟩
        · rintro ⟨-, rfl⟩
          rfl
      · rw [if_neg (show ¬(0 : ℚ) < _ from hpos)]
        simp [CandidatoAceito, hpos]
    · rw [if_neg hok]
      rw [if_neg (show ¬(0 : ℚ) < _ from by simp [NotaFiscal.nova])]
      simp [CandidatoAceito, hok]
  · rw [if_neg h6]
    simp [CandidatoAceito, h6]

/-- Membership characterization of the whole extraction: a record is stored
iff it is the record of an accepted candidate at a scanned offset (at least
20 bytes of lookahead) of one of the `"DADOS"` blocks. -/
theorem mem_extrair_iff {agora : Nat} {dados : List Nat}
    {blocos : List BlocoEstrutura} {n : NotaFiscal} :
    n ∈ extrair_notas_fiscais agora dados blocos ↔
    ∃ idx bloco i,
      (blocos.filter (fun b => b.tipo == "DADOS"))[idx]? = some bloco ∧
      i + 20 < (fatia dados bloco.posicao_inicio bloco.posicao_fim).length ∧
      CandidatoAceito (fatia dados bloco.posicao_inicio bloco.posicao_fim) i ∧
      n = notaDe agora idx bloco.posicao_inicio
        (fatia dados bloco.posicao_inicio bloco.posicao_fim) i := by
  rw [extrair_notas_fiscais]
  simp only [List.mem_flatMap, List.mem_filterMap, List.mem_range]
  constructor
  · rintro ⟨⟨idx, bloco⟩, hmem, i, hi, hcand⟩
    rw [List.mem_enum_iff_getElem?] at hmem
    dsimp only at hmem hi hcand
    rcases candidato_eq_some.mp hcand with ⟨hac, rfl⟩
    exact ⟨idx, bloco, i, hmem, by omega, hac, rfl⟩
  · rintro ⟨idx, bloco, i, hidx, hi, hac, rfl⟩
    refine ⟨(idx, bloco), ?_, i, ?_, ?_⟩
    · rw [List.mem_enum_iff_getElem?]
      exact hidx
    · dsimp only
      omega
    · dsimp only
      exact candidato_eq_some.mpr ⟨hac, rfl⟩

/-! ## Decomposition of the density-map window counts -/

/-- The profiler's control count splits into the null count plus the
density map's null-free control count. -/
theorem contarControle_decompoe (l : List Nat) :
    contarControle l = contarNulos l + l.countP (fun b => b < 32 && b != 0) := by
  induction l with
  | nil => rfl
  | cons b l ih =>
    rw [contarControle, contarNulos] at ih ⊢
    simp only [List.countP_cons]
    split_ifs <;> simp_all <;> omega

/-- The four window classes (null, null-free control, printable ASCII,
above 127) partition every byte list. -/
theorem particao_janela (l : List Nat) :
    contarNulos l + l.countP (fun b => b < 32 && b != 0) + contarAscii l +
      l.countP (fun b => 127 < b) = l.length := by
  induction l with
  | nil => rfl
  | cons b l ih =>
    rw [contarNulos, contarAscii] at ih ⊢
    simp only [List.countP_cons, List.length_cons]
    split_ifs <;> simp_all <;> omega

/-- A buffer accepted by the signature check starts with a non-null byte
(its first three bytes decode to `"HE3"`, whose first character is `'H'`). -/
theorem cabeca_nao_nula : ∀ {dados : List Nat}, 3 ≤ dados.length →
    pyDecode (dados.take 3) = "HE3" →
    ∃ b resto, dados = b :: resto ∧ b ≠ 0 := by
  intro dados h3 hdec
  match dados with
  | [] => simp at h3
  | b :: resto =>
    refine ⟨b, resto, rfl, fun hb => ?_⟩
    subst hb
    rw [pyDecode] at hdec
    have h1 : String.mk (decodeUtf8Ignore (((0 : Nat) :: resto).take 3)) =
        String.mk ['H', 'E', '3'] := hdec
    injection h1 with h2
    have hpasso : ∀ (n : Nat) (l : List Nat),
        decodeAux (n + 1) (0 :: l) = Char.ofNat 0 :: decodeAux n l :=
      fun _ _ => rfl
    rw [List.take_succ_cons, decodeUtf8Ignore, List.length_cons, hpasso] at h2
    injection h2 with h3c _
    exact absurd h3c (by decide)

/-! ## Concrete buffers used to settle the claims -/

/-- The exact byte layout of the §8 scenario. -/
def dadosCenario : List Nat :=
  [72, 69, 51] ++ [49, 46, 48, 0] ++ List.replicate 100 65 ++
    List.replicate 30 0 ++ [49, 50, 51, 52, 53, 54, 65, 66, 67] ++
    [32, 32, 49, 50, 46, 53, 48, 32] ++ List.replicate 25 0

/-- A buffer whose analysis stores exactly one invoice record: signature,
one 20-byte null region, then a 21-byte tail block
`"123456ABCD12.50000EEE"` (the value window has no spaces, so the filtered
literal passes the digit test). -/
def dadosNota : List Nat :=
  [72, 69, 51] ++ List.replicate 20 0 ++
    [49, 50, 51, 52, 53, 54, 65, 66, 67, 68] ++
    [49, 50, 46, 53, 48, 48, 48, 48] ++ [69, 69, 69]

/-- A buffer with a gap block that starts below offset 1024 (offset 23) but
ends beyond it (offset 1122). -/
def dadosLongo : List Nat :=
  [72, 69, 51] ++ List.replicate 20 0 ++ List.replicate 1100 65 ++
    List.replicate 20 0

/-! ## The claims -/

/-- Claim C1 (evidence of the code bug): for the accepted four-byte buffer
`"HE3" ++ [0]`, the percentages the analysis computes are 25, 25, 75 and
-25, so the sum null% + (control% - null%) + ascii% + other% claimed to be
100 is in fact 75.  The code computes `bytes_unicode = total - nulos -
controle - ascii`, subtracting the null count twice (`controle` already
contains it), so the sum is `100 - null%` and the fourth percentage can be
negative. -/
theorem claim_C1 :
    (execucao 0 [72, 69, 51, 0] "f").2.toOption.map
        (fun a => (a.percentual_bytes_nulos, a.percentual_controle,
          a.percentual_ascii, a.percentual_unicode)) =
      some (25, 25, 75, -25) ∧
    (25 : ℚ) + (25 - 25) + 75 + (-25) = 75 ∧ (75 : ℚ) ≠ 100 := by
  refine ⟨?_, by norm_num, by norm_num⟩
  rw [execucao, carregar_arquivo,
    if_pos (show _ ∧ _ from ⟨by norm_num, by decide⟩)]
  have h1 : contarNulos [72, 69, 51, 0] = 1 := by decide
  have h2 : contarControle [72, 69, 51, 0] = 1 := by decide
  have h3 : contarAscii [72, 69, 51, 0] = 3 := by decide
  simp only [Except.toOption, Option.map, h1, h2, h3, List.length_cons,
    List.length_nil]
  norm_num

/-- Claim C2 counterexample: on the exact §8 scenario buffer the analysis
stores no invoice record at all, the two blocks are `"CABEÇALHO"` and
`"DEFINIÇÃO"` (no `"DADOS"` block), and the version string keeps its
trailing null byte, so it is not `"1.0"`. -/
theorem claim_C2_contra :
    (execucao 0 dadosCenario "c").1.notas_fiscais = [] ∧
    (execucao 0 dadosCenario "c").1.blocos.map (fun b => b.tipo) =
      ["CABEÇALHO", "DEFINIÇÃO"] ∧
    (execucao 0 dadosCenario "c").2.toOption.map (fun a => a.versao_formato) =
      some "1.0\x00" ∧
    ("1.0\x00" : String) ≠ "1.0" := by
  refine ⟨by decide, by decide, by decide, by decide⟩

/-- Claim C2 amended: on the scenario buffer the analysis yields signature
`"HE3"`, version `"1.0\x00"` (strip does not remove the NUL), a null region
of length 30 at offsets 107-136, a trailing null region of length 25 at
offsets 154-178, one `"CABEÇALHO"` block at offsets 0-106, one
`"DEFINIÇÃO"` block at offsets 137-153 (its start offset 137 is below
1024), and no invoice records (there is no `"DADOS"` block to scan, and the
value window `"  12.50 "` would in any case fail the all-digits test
because its spaces survive the printable-ASCII filter). -/
theorem claim_C2_emendada :
    (execucao 0 dadosCenario "c").2.toOption.map
        (fun a => (a.assinatura, a.versao_formato, a.numero_blocos,
          a.numero_regioes_nulas, a.tamanho_bytes)) =
      some ("HE3", "1.0\x00", 2, 2, 179) ∧
    (execucao 0 dadosCenario "c").1.regioes_nulas =
      [⟨107, 136, 30⟩, ⟨154, 178, 25⟩] ∧
    (execucao 0 dadosCenario "c").1.blocos.map
        (fun b => (b.posicao_inicio, b.posicao_fim, b.tamanho, b.tipo)) =
      [(0, 106, 107, "CABEÇALHO"), (137, 153, 17, "DEFINIÇÃO")] ∧
    (execucao 0 dadosCenario "c").1.notas_fiscais = [] := by
  refine ⟨by decide, by decide, by decide, by decide⟩

/-- Claim C3 counterexample: the three-byte buffer `"HE3"` has no null
region, so its single block is the final tail block, typed `"DADOS"` — the
first block of the list is not `"CABEÇALHO"`. -/
theorem claim_C3_contra :
    (execucao 0 [72, 69, 51] "f").1.blocos.map (fun b => b.tipo) = ["DADOS"] ∧
    ("DADOS" : String) ≠ "CABEÇALHO" := by
  refine ⟨by decide, by decide⟩

/-- Claim C3 amended: whenever a successful analysis finds at least one
null region, the first emitted block has kind `"CABEÇALHO"`: the signature
makes byte 0 non-null, so the earliest region starts after offset 0 and the
walk emits the gap block from offset 0 first.  (When no region is found,
the single tail block is typed `"DADOS"` instead — the original claim fails
exactly there.) -/
theorem claim_C3_emendada (agora : Nat) (dados : List Nat) (nome : String)
    (s : PDVBackupAnalyzer) (a : ArquivoBackup)
    (h : execucao agora dados nome = (s, Except.ok a))
    (hreg : s.regioes_nulas ≠ []) :
    (s.blocos.map (fun b => b.tipo)).head? = some "CABEÇALHO" := by
  obtain ⟨hr, hb, -, hlen, hdec⟩ := execucao_ok_estado h
  obtain ⟨b0, resto, rfl, hb0⟩ := cabeca_nao_nula hlen hdec
  have hmap : mapear_regioes_nulas (b0 :: resto) =
      mapearDesde resto.length 1 resto := by
    rw [mapear_regioes_nulas, List.length_cons, mapearDesde, if_pos hb0]
  have hboas := regioesBoas_mapearDesde resto.length resto 1 le_rfl
  rw [hr, hmap] at hreg
  rw [hb, hmap]
  cases hregs : mapearDesde resto.length 1 resto with
  | nil => exact absurd hregs hreg
  | cons r regs =>
    rw [hregs] at hboas
    obtain ⟨h1, -, -, -, -, -⟩ := hboas
    rw [blocosEntre, if_pos (by omega)]
    simp [classificaBloco]

/-- Claim C3 witness: a concrete successful run with one null region whose
first block is the header block. -/
theorem claim_C3_testemunha :
    (((execucao 0 dadosNota "n").1.blocos.map (fun b => b.tipo)).head?) =
      some "CABEÇALHO" :=
  claim_C3_emendada 0 dadosNota "n" _ _ rfl (by decide)

/-- Claim C4 counterexample: in the buffer with a 1100-byte gap block at
offsets 23-1122, that block ends past offset 1024 (so the claim would make
it `"DADOS"`), yet the code types it `"DEFINIÇÃO"` because only its start
offset is compared with 1024.  (The three-byte buffer of the C3
counterexample also refutes the claim for the offset-0 case: its block
starts at offset 0 yet is `"DADOS"`, because the tail block is never
`"CABEÇALHO"`.) -/
theorem claim_C4_contra :
    (execucao 0 dadosLongo "f").1.blocos.map
        (fun b => (b.posicao_inicio, b.posicao_fim, b.tipo)) =
      [(0, 2, "CABEÇALHO"), (23, 1122, "DEFINIÇÃO")] ∧
    ¬(1122 : Nat) < 1024 ∧ ("DEFINIÇÃO" : String) ≠ "DADOS" := by
  refine ⟨by decide, by decide, by decide⟩

/-- Claim C4 amended: block kinds are assigned by position as follows.  The
final tail block — the one whose end offset is the last offset of the
buffer — is always `"DADOS"`, whatever its position.  Any other (gap) block
is `"CABEÇALHO"` when it starts at offset 0, `"DEFINIÇÃO"` when its start
offset (not its end) is below 1024, and `"DADOS"` otherwise. -/
theorem claim_C4_emendada (agora : Nat) (dados : List Nat) (nome : String)
    (s : PDVBackupAnalyzer) (a : ArquivoBackup)
    (h : execucao agora dados nome = (s, Except.ok a)) :
    ∀ b ∈ s.blocos,
      b.tipo = if b.posicao_fim + 1 = dados.length then "DADOS"
        else if b.posicao_inicio = 0 then "CABEÇALHO"
        else if b.posicao_inicio < 1024 then "DEFINIÇÃO"
        else "DADOS" := by
  obtain ⟨-, hb, -, -, -⟩ := execucao_ok_estado h
  rw [hb]
  exact blocosEntre_tipo (regioesBoas_mapear dados)

/-- Claim C4 witness: the tail block of a concrete run, which ends at the
buffer's last offset and is typed `"DADOS"` by the first case of the rule. -/
theorem claim_C4_testemunha :
    ({ posicao_inicio := 23, posicao_fim := 43, tamanho := 21, tipo := "DADOS"
       contem_texto := false, contem_binario := false, assinatura_hex := "" }
        : BlocoEstrutura).tipo =
      if 43 + 1 = dadosNota.length then "DADOS"
      else if (23 : Nat) = 0 then "CABEÇALHO"
      else if (23 : Nat) < 1024 then "DEFINIÇÃO"
      else "DADOS" :=
  claim_C4_emendada 0 dadosNota "n" _ _ rfl
    { posicao_inicio := 23, posicao_fim := 43, tamanho := 21, tipo := "DADOS"
      contem_texto := false, contem_binario := false, assinatura_hex := "" }
    (by decide)

/-- Claim C5 (confirmed): on every successful analysis, no emitted block is
empty, and every offset of the buffer is covered by exactly one emitted
block or exactly one recorded null region — the blocks and null regions
tile the buffer exactly. -/
theorem claim_C5 (agora : Nat) (dados : List Nat) (nome : String)
    (s : PDVBackupAnalyzer) (a : ArquivoBackup)
    (h : execucao agora dados nome = (s, Except.ok a)) :
    (∀ b ∈ s.blocos, 0 < b.tamanho) ∧
    ∀ k, k < dados.length →
      s.blocos.countP (fun b => b.posicao_inicio ≤ k && k ≤ b.posicao_fim) +
        s.regioes_nulas.countP (fun r => r.inicio ≤ k && k ≤ r.fim) = 1 := by
  obtain ⟨hr, hb, -, -, -⟩ := execucao_ok_estado h
  have hboas := regioesBoas_mapear dados
  constructor
  · intro b hbmem
    rw [hb] at hbmem
    have := blocosEntre_limites hboas b hbmem
    omega
  · intro k hk
    rw [hb, hr]
    exact blocosEntre_conta hboas (Nat.zero_le k) hk

/-- Claim C5 witness: the tiling property on a concrete three-byte run with
a single block and no null region. -/
theorem claim_C5_testemunha :
    (∀ b ∈ (execucao 0 [72, 69, 51] "f").1.blocos, 0 < b.tamanho) ∧
    ∀ k, k < ([72, 69, 51] : List Nat).length →
      (execucao 0 [72, 69, 51] "f").1.blocos.countP
          (fun b => b.posicao_inicio ≤ k && k ≤ b.posicao_fim) +
        (execucao 0 [72, 69, 51] "f").1.regioes_nulas.countP
          (fun r => r.inicio ≤ k && k ≤ r.fim) = 1 :=
  claim_C5 0 [72, 69, 51] "f" _ _ rfl

/-- Claim C6 (confirmed): a record is stored by the extractor exactly when
some scanned offset of some `"DADOS"` block (scanned offsets keep at least
20 bytes of lookahead) satisfies the acceptance condition — six ASCII
digits at the offset, the printable-ASCII-filtered 8-byte window at offset
i+10 passes the at-most-one-dot all-digits test, and the parsed value is
strictly positive — and the stored record is that candidate's record.
Every other candidate is rejected silently: the extraction is a total
function and a failed candidate contributes nothing. -/
theorem claim_C6 (agora : Nat) (dados : List Nat)
    (blocos : List BlocoEstrutura) (n : NotaFiscal) :
    n ∈ extrair_notas_fiscais agora dados blocos ↔
    ∃ idx bloco i,
      (blocos.filter (fun b => b.tipo == "DADOS"))[idx]? = some bloco ∧
      i + 20 < (fatia dados bloco.posicao_inicio bloco.posicao_fim).length ∧
      CandidatoAceito (fatia dados bloco.posicao_inicio bloco.posicao_fim) i ∧
      n = notaDe agora idx bloco.posicao_inicio
        (fatia dados bloco.posicao_inicio bloco.posicao_fim) i :=
  mem_extrair_iff

/-- Claim C7 counterexample: the zero-length buffer fails with exactly the
same `InvalidSignature` outcome (the `st.error` message and `None` return)
as any wrong-signature buffer — the code has no distinct `EmptyInput`
error. -/
theorem claim_C7_contra :
    (execucao 0 [] "vazio").2 = Except.error mensagemAssinatura ∧
    (execucao 0 [1, 2, 3] "qualquer").2 = Except.error mensagemAssinatura ∧
    (execucao 0 [] "vazio").1.blocos = [] ∧
    (execucao 0 [] "vazio").1.regioes_nulas = [] ∧
    (execucao 0 [] "vazio").1.notas_fiscais = [] := by
  refine ⟨rfl, rfl, rfl, rfl, rfl⟩

/-- Claim C7 amended: the zero-length buffer is rejected by the signature
check itself (the one `Invalid­Signature`-style failure the code has, not a
distinct `EmptyInput`), and the percentage computation never divides by
zero because it only runs on accepted buffers, which have length at least
3, hence positive. -/
theorem claim_C7_emendada (agora : Nat) (nome : String) (dados : List Nat)
    (s : PDVBackupAnalyzer) (a : ArquivoBackup) :
    (execucao agora [] nome).2 = Except.error mensagemAssinatura ∧
    (execucao agora dados nome = (s, Except.ok a) → 0 < dados.length) := by
  constructor
  · rw [execucao, carregar_arquivo, if_neg (by simp)]
  · intro h
    have := (execucao_ok_estado h).2.2.2.1
    omega

/-- Claim C7 witness: the empty buffer's failure, and the positive length
of a concretely accepted buffer. -/
theorem claim_C7_testemunha :
    (execucao 0 [] "f").2 = Except.error mensagemAssinatura ∧
    0 < ([72, 69, 51] : List Nat).length :=
  ⟨(claim_C7_emendada 0 "f" [] PDVBackupAnalyzer.novo
      (ArquivoBackup.novo "f" 0 0)).1,
    (claim_C7_emendada 0 "f" [72, 69, 51] _ _).2 rfl⟩

/-- Claim C8 counterexample: on the one-byte buffer `[0]` the density map's
single window reports control density 0, while the §4.2 profiler
classification of that window's bytes (`byte < 32`, null included) counts
1 control byte, density 1: the window counts do not equal the §4.2
classification, because the window's control count excludes null bytes. -/
theorem claim_C8_contra :
    gerar_mapa_densidade [0] 1024 = [⟨0, 0, 1, 0, 0, 0⟩] ∧
    (contarControle [0] : ℚ) / (([0] : List Nat).length : ℚ) = 1 ∧
    (0 : ℚ) ≠ 1 := by
  refine ⟨?_, ?_, by norm_num⟩
  · rw [gerar_mapa_densidade]
    norm_num
    rw [show List.range 1 = [0] from rfl, List.map_cons, List.map_nil]
    rw [show fatia [0] (0 * 1024) 0 = [0] from rfl]
    rw [show (List.countP (fun b => b == 0) [0]) = 1 from rfl,
      show (List.countP (fun b => decide (b < 32) && b != 0) [0]) = 0 from rfl,
      show (List.countP (fun b => decide (32 ≤ b) && decide (b ≤ 127)) [0]) = 0
        from rfl,
      show ([0] : List Nat).length = 1 from rfl]
    simp only [List.cons.injEq, JanelaDensidade.mk.injEq, and_true]
    norm_num
  · rw [show contarControle [0] = 1 from rfl]
    norm_num

/-- Claim C8 amended: each density window `i` covers offsets
`[i*w, min ((i+1)*w - 1) (len-1)]` (offset order, last window truncated);
its null and printable-ASCII counts agree with the §4.2 profiler applied to
the window's bytes, its control count equals the §4.2 control count MINUS
the §4.2 null count (the window's control class excludes null bytes, unlike
§4.2), and its fourth density is the bytes above 127 (the true remainder,
not §4.2's doubly-discounted remainder); densities divide by the window's
length. -/
theorem claim_C8_emendada (dados : List Nat) (tamanho_bloco : Nat)
    (htb : 0 < tamanho_bloco) (i : Nat)
    (hi : i < (dados.length + tamanho_bloco - 1) / tamanho_bloco)
    (w : List Nat)
    (hw : w = fatia dados (i * tamanho_bloco)
      (min ((i + 1) * tamanho_bloco - 1) (dados.length - 1))) :
    (gerar_mapa_densidade dados tamanho_bloco)[i]? = some
      { inicio := i * tamanho_bloco
        fim := min ((i + 1) * tamanho_bloco - 1) (dados.length - 1)
        densidade_nulos := (contarNulos w : ℚ) / (w.length : ℚ)
        densidade_controle :=
          ((contarControle w : ℚ) - (contarNulos w : ℚ)) / (w.length : ℚ)
        densidade_ascii := (contarAscii w : ℚ) / (w.length : ℚ)
        densidade_unicode :=
          (w.countP (fun b => 127 < b) : ℚ) / (w.length : ℚ) } := by
  rw [gerar_mapa_densidade]
  rw [List.getElem?_map, List.getElem?_range hi]
  simp only [Option.map_some', ← hw]
  rw [show List.countP (fun b => b == 0) w = contarNulos w from rfl,
    show List.countP (fun b => decide (32 ≤ b) && decide (b ≤ 127)) w
      = contarAscii w from rfl]
  have h4 : ((w.countP (fun b => b < 32 && b != 0) : Nat) : ℚ) / (w.length : ℚ)
      = ((contarControle w : ℚ) - (contarNulos w : ℚ)) / (w.length : ℚ) := by
    rw [contarControle_decompoe w]
    push_cast
    ring_nf
  have hcq : ((w.length : ℚ)) = (contarNulos w : ℚ) +
      (w.countP (fun b => b < 32 && b != 0) : ℚ) + (contarAscii w : ℚ) +
      (w.countP (fun b => 127 < b) : ℚ) := by
    exact_mod_cast (particao_janela w).symm
  refine congrArg some ?_
  rw [h4]
  simp only [JanelaDensidade.mk.injEq, eq_self_iff_true, true_and, and_true]
  push_cast
  exact congrArg (fun x : ℚ => x / (w.length : ℚ)) (by linarith [hcq])


/-- Claim C8 witness: the second (truncated) window of the two-byte buffer
`[0, 200]` with window size 1, whose single byte is above 127. -/
theorem claim_C8_testemunha :
    (gerar_mapa_densidade [0, 200] 1)[1]? = some
      { inicio := 1 * 1
        fim := min ((1 + 1) * 1 - 1) (([0, 200] : List Nat).length - 1)
        densidade_nulos :=
          (contarNulos [200] : ℚ) / (([200] : List Nat).length : ℚ)
        densidade_controle :=
          ((contarControle [200] : ℚ) - (contarNulos [200] : ℚ)) /
            (([200] : List Nat).length : ℚ)
        densidade_ascii :=
          (contarAscii [200] : ℚ) / (([200] : List Nat).length : ℚ)
        densidade_unicode :=
          (([200] : List Nat).countP (fun b => 127 < b) : ℚ) /
            (([200] : List Nat).length : ℚ) } :=
  claim_C8_emendada [0, 200] 1 (by norm_num) 1 (by decide) [200] (by decide)

/-- Claim C9 (confirmed): two runs of `carregar_arquivo` over the same
buffer, each from a fresh `PDVBackupAnalyzer` (the state `__init__` leaves)
and with the same clock reading, return byte-identical results — the same
returned `ArquivoBackup` and the same final block, null-region and record
lists.  The embedding is a pure function of the initial state, the clock
and the buffer, so the fresh-state hypothesis of the claim gives equality
of whole results; no state is shared across runs. -/
theorem claim_C9 (agora : Nat) (dados : List Nat) (nome : String)
    (s1 s2 : PDVBackupAnalyzer) (h1 : s1 = PDVBackupAnalyzer.novo)
    (h2 : s2 = PDVBackupAnalyzer.novo) :
    carregar_arquivo agora s1 dados nome =
      carregar_arquivo agora s2 dados nome := by
  rw [h1, h2]

/-- Claim C9 witness: two fresh runs on a concrete buffer. -/
theorem claim_C9_testemunha :
    carregar_arquivo 0 PDVBackupAnalyzer.novo [72, 69, 51] "f" =
      carregar_arquivo 0 PDVBackupAnalyzer.novo [72, 69, 51] "f" :=
  claim_C9 0 [72, 69, 51] "f" PDVBackupAnalyzer.novo PDVBackupAnalyzer.novo
    rfl rfl

/-- Claim C10 (confirmed): every stored invoice record has `valor_final`
equal to `valor_total` (both are set to the parsed value in the same
branch), and its discount and surcharge are the zeroes `__init__` wrote —
no record is ever discounted or surcharged. -/
theorem claim_C10 (agora : Nat) (dados : List Nat)
    (blocos : List BlocoEstrutura) (n : NotaFiscal)
    (h : n ∈ extrair_notas_fiscais agora dados blocos) :
    n.valor_final = n.valor_total ∧ n.desconto = 0 ∧ n.acrescimo = 0 := by
  obtain ⟨idx, bloco, i, -, -, -, rfl⟩ := mem_extrair_iff.mp h
  exact ⟨rfl, rfl, rfl⟩

/-- Claim C10 witness: the record extracted at offset 0 of the single data
block of `dadosNota` (value `12.5`). -/
theorem claim_C10_testemunha :
    (notaDe 0 0 23 (fatia dadosNota 23 43) 0).valor_final =
        (notaDe 0 0 23 (fatia dadosNota 23 43) 0).valor_total ∧
      (notaDe 0 0 23 (fatia dadosNota 23 43) 0).desconto = 0 ∧
      (notaDe 0 0 23 (fatia dadosNota 23 43) 0).acrescimo = 0 :=
  claim_C10 0 dadosNota
    [{ posicao_inicio := 23, posicao_fim := 43, tamanho := 21, tipo := "DADOS"
       contem_texto := false, contem_binario := false, assinatura_hex := "" }]
    (notaDe 0 0 23 (fatia dadosNota 23 43) 0)
    (mem_extrair_iff.mpr ⟨0,
      { posicao_inicio := 23, posicao_fim := 43, tamanho := 21, tipo := "DADOS"
        contem_texto := false, contem_binario := false, assinatura_hex := "" },
      0, by decide, by decide,
      ⟨by decide, by decide, by
        rw [parseValor,
          show valorStr (fatia dadosNota 23 43) 0 = "12.50000" from by decide,
          show valorNumerador "12.50000" = 1250000 from by decide,
          show valorCasas "12.50000" = 5 from by decide]
        norm_num⟩,
      rfl⟩)

end PDV
